import Mathlib

/-
Verification of the resilience engine of the Web-Pages repository:
shallow embedding of the circuit breaker, retry controller, TTL cache,
request pipeline and health monitor, followed by theorems about them.

Timestamps and durations are modelled as `Nat` (JS `Date.now()` values);
delay arithmetic, which involves the fractional jitter factor 0.1, is
modelled over `ℚ`.  Each iteration of a retry loop is treated as a single
instant: the several `Date.now()` calls made inside one iteration of the
source all read the same clock value, supplied by a `times` function
indexed by the attempt number.
-/

namespace SelfHealing

/-! ## Circuit breaker (part_003, `SelfHealingService.circuitBreaker`) -/

/-- The three breaker states of the source (`'closed'`, `'open'`, `'half-open'`). -/
inductive BreakerMode where
  | closed
  | opened
  | halfOpen
deriving DecidableEq

/-- The `this.circuitBreaker` record of part_003. -/
structure CircuitBreaker where
  state : BreakerMode
  failureCount : Nat
  lastFailureTime : Nat
  nextAttemptTime : Nat
deriving DecidableEq

/-- Engine configuration, restricted to the fields the modelled code reads. -/
structure Config where
  retryAttempts : Nat
  circuitBreakerThreshold : Nat
  circuitBreakerTimeout : Nat
  cacheExpiryTime : Nat
deriving DecidableEq

/-- part_003 `canProceedWithApiCall`: gate decision plus the breaker mutation
(OPEN moves to HALF_OPEN when `now > nextAttemptTime`, strictly). -/
def canProceedWithApiCall (cb : CircuitBreaker) (now : Nat) : Bool × CircuitBreaker :=
  match cb.state with
  | .closed => (true, cb)
  | .opened =>
      if cb.nextAttemptTime < now then (true, { cb with state := .halfOpen })
      else (false, cb)
  | .halfOpen => (true, cb)

/-- part_003 `recordApiSuccess` (breaker part): a single success in HALF_OPEN
closes the breaker and zeroes `failureCount`; otherwise no breaker change. -/
def recordApiSuccess (cb : CircuitBreaker) : CircuitBreaker :=
  if cb.state = .halfOpen then { cb with state := .closed, failureCount := 0 }
  else cb

/-- part_003 `recordApiFailure`: increment `failureCount`, stamp
`lastFailureTime`, and open with `nextAttemptTime = now + timeout` once the
count reaches the threshold. -/
def recordApiFailure (cfg : Config) (cb : CircuitBreaker) (now : Nat) : CircuitBreaker :=
  let cb2 : CircuitBreaker := { cb with failureCount := cb.failureCount + 1, lastFailureTime := now }
  if cfg.circuitBreakerThreshold ≤ cb2.failureCount then
    { cb2 with state := .opened, nextAttemptTime := now + cfg.circuitBreakerTimeout }
  else cb2

/-- A sequence of consecutive reported failures, the k-th at clock `ts[k]`. -/
def recordFailures (cfg : Config) (cb : CircuitBreaker) (ts : List Nat) : CircuitBreaker :=
  ts.foldl (fun b t => recordApiFailure cfg b t) cb

/-! ## Circuit breaker of part_001 (`APIManager`), which keeps a half-open
success counter. -/

/-- One entry of part_001 `APIManager.circuitBreakers`. -/
structure APIBreaker where
  state : BreakerMode
  failureCount : Nat
  lastFailureTime : Nat
  successCount : Nat
deriving DecidableEq

/-- part_001 `APIManager.recordFailure` for one url. -/
def APIBreaker.recordFailure (threshold : Nat) (b : APIBreaker) (now : Nat) : APIBreaker :=
  let b2 : APIBreaker := { b with failureCount := b.failureCount + 1, lastFailureTime := now }
  if threshold ≤ b2.failureCount then { b2 with state := .opened } else b2

/-- part_001 `APIManager.resetCircuitBreaker` for one url (the success path):
in HALF_OPEN count successes and close at 2, zeroing both counters; in CLOSED
decay `failureCount` by one with floor 0 (`Nat` subtraction). -/
def APIBreaker.resetCircuitBreaker (b : APIBreaker) : APIBreaker :=
  if b.state = .halfOpen then
    let b2 : APIBreaker := { b with successCount := b.successCount + 1 }
    if 2 ≤ b2.successCount then
      { b2 with state := .closed, failureCount := 0, successCount := 0 }
    else b2
  else if b.state = .closed then
    { b with failureCount := b.failureCount - 1 }
  else b

/-! ## Association-list primitives (the JS `Map` with string keys) -/

/-- `Map.get`: first entry with the given key. -/
def alistLookup {β : Type} : List (String × β) → String → Option β
  | [], _ => none
  | (k2, v) :: rest, k => if k2 = k then some v else alistLookup rest k

/-- `Map.delete`: remove the entry with the given key. -/
def alistDelete {β : Type} : List (String × β) → String → List (String × β)
  | [], _ => []
  | (k2, v) :: rest, k =>
      if k2 = k then alistDelete rest k else (k2, v) :: alistDelete rest k

/-- `Map.set`: replace in place, or append when the key is new. -/
def alistInsert {β : Type} : List (String × β) → String → β → List (String × β)
  | [], k, v => [(k, v)]
  | (k2, v2) :: rest, k, v =>
      if k2 = k then (k, v) :: rest else (k2, v2) :: alistInsert rest k v

/-! ## API responses and the cache of part_003 (`SelfHealingService`)

An API response body is abstracted to the fields the engine inspects: an
`items` list (item payloads abstracted to `Nat`; `sanitizeVideoData` is
modelled as the identity on these abstract payloads, since no claim concerns
the string sanitisation itself) and the optional `error.type` tag. -/

/-- A JS response/data object as seen by the engine. -/
structure ApiResponse where
  items : List Nat
  errorTag : Option String
deriving DecidableEq

/-- A thrown JS `Error`, reduced to its message. -/
structure JsError where
  message : String
deriving DecidableEq

/-- One entry of `this.cache` in part_003: `{data, timestamp, expires}`. -/
structure CacheEntry where
  data : ApiResponse
  timestamp : Nat
  expires : Nat
deriving DecidableEq

/-- The volatile cache map of part_003. -/
abbrev Cache := List (String × CacheEntry)

/-- part_003 `getCacheKey(url, options)`: url concatenated with the
serialised options (`JSON.stringify`); the serialisation itself is abstract,
the options argument is already a string. -/
def getCacheKey (url opts : String) : String := url ++ opts

/-- The serialisation of the default (empty) options object. -/
def defaultOpts : String := "\x7b\x7d"

/-- part_003 `setCache`: store with `expires = now + cacheExpiryTime`. -/
def setCache (cfg : Config) (c : Cache) (key : String) (d : ApiResponse) (now : Nat) : Cache :=
  alistInsert c key ⟨d, now, now + cfg.cacheExpiryTime⟩

/-- part_003 `getFromCache(key, allowStale)`: a fresh read deletes and
misses once `now > expires` (strictly); a stale-allowed read returns the
stored value unconditionally and never mutates. -/
def getFromCache (c : Cache) (key : String) (allowStale : Bool) (now : Nat) :
    Option ApiResponse × Cache :=
  match alistLookup c key with
  | none => (none, c)
  | some e =>
      if allowStale = false ∧ e.expires < now then (none, alistDelete c key)
      else (some e.data, c)

/-- The `{items: [], error: {type: 'fallback', ...}}` structure returned by
`handleApiFallback` when no cached data is available. -/
def fallbackResponse : ApiResponse := ⟨[], some "fallback"⟩

/-- The mutable state of one `SelfHealingService` that `resilientApiCall`
touches: the breaker and the cache. -/
structure ServiceState where
  cb : CircuitBreaker
  cache : Cache
deriving DecidableEq

/-- part_003 `handleApiFallback`: stale read of the options-default cache key
(`getCacheKey(url)` — note the options are NOT forwarded), else the tagged
empty structure.  A stale-allowed read never mutates, so the state is
returned unchanged. -/
def handleApiFallback (st : ServiceState) (url : String) (now : Nat) :
    ApiResponse × ServiceState :=
  match (getFromCache st.cache (getCacheKey url defaultOpts) true now).1 with
  | some d => (d, st)
  | none => (fallbackResponse, st)

/-- Pure view of the fallback result: what `handleApiFallback` returns given
a cache (independent of the clock, since stale reads ignore expiry). -/
def fallbackOf (c : Cache) (url : String) : ApiResponse :=
  match alistLookup c (getCacheKey url defaultOpts) with
  | some e => e.data
  | none => fallbackResponse

/-- Whether one attempt of the try-block fails: either `fetch`/`json` threw,
or `validateApiResponse` threw because the body carried an `error` field. -/
def attemptFails (r : Except JsError ApiResponse) : Bool :=
  match r with
  | .error _ => true
  | .ok raw => raw.errorTag.isSome

/-- Result of one full `resilientApiCall`: the returned value, the final
service state, and (for observability) how many times the underlying fetch
operation actually ran. -/
structure CallResult where
  result : ApiResponse
  state : ServiceState
  invocations : Nat
deriving DecidableEq

/-- The retry loop of part_003 `resilientApiCall` (lines 90–147).
`op attempt` is the fetch+json body of attempt `attempt`; `times attempt` is
the clock during that iteration; `fuel` counts the iterations left
(`fuel = retryAttempts`, `attempt = 1` at entry).  Each iteration first
consults the cache (a fresh read, which evicts expired entries), then runs
the operation, validating the body; a failure records a breaker failure and
either breaks to `handleApiFallback` (when `attempt = retryAttempts`) or
backs off and retries. -/
def apiLoop (cfg : Config) (url opts : String) (op : Nat → Except JsError ApiResponse)
    (times : Nat → Nat) : Nat → Nat → Nat → ServiceState → CallResult
  | 0, attempt, inv, st =>
      let fb := handleApiFallback st url (times attempt)
      ⟨fb.1, fb.2, inv⟩
  | fuel + 1, attempt, inv, st =>
      let t := times attempt
      let key := getCacheKey url opts
      match getFromCache st.cache key false t with
      | (some d, c2) => ⟨d, ⟨recordApiSuccess st.cb, c2⟩, inv⟩
      | (none, c2) =>
          match op attempt with
          | .ok raw =>
              if raw.errorTag.isSome then
                -- validateApiResponse threw: caught like any other failure
                if attempt = cfg.retryAttempts then
                  let fb := handleApiFallback ⟨recordApiFailure cfg st.cb t, c2⟩ url t
                  ⟨fb.1, fb.2, inv + 1⟩
                else
                  apiLoop cfg url opts op times fuel (attempt + 1) (inv + 1)
                    ⟨recordApiFailure cfg st.cb t, c2⟩
              else
                ⟨raw, ⟨recordApiSuccess st.cb, setCache cfg c2 key raw t⟩, inv + 1⟩
          | .error _ =>
              if attempt = cfg.retryAttempts then
                let fb := handleApiFallback ⟨recordApiFailure cfg st.cb t, c2⟩ url t
                ⟨fb.1, fb.2, inv + 1⟩
              else
                apiLoop cfg url opts op times fuel (attempt + 1) (inv + 1)
                  ⟨recordApiFailure cfg st.cb t, c2⟩

/-- part_003 `resilientApiCall`: consult the breaker gate (which may move an
OPEN breaker to HALF_OPEN), then run the retry loop, or go straight to
`handleApiFallback` when the gate rejects.  Every throw site of the source
body sits inside the loop's try/catch, so the embedding is a total function:
the call never throws to its caller. -/
def resilientApiCall (cfg : Config) (url opts : String)
    (op : Nat → Except JsError ApiResponse) (times : Nat → Nat)
    (st : ServiceState) : CallResult :=
  let gate := canProceedWithApiCall st.cb (times 0)
  if gate.1 then
    apiLoop cfg url opts op times cfg.retryAttempts 1 0 ⟨gate.2, st.cache⟩
  else
    let fb := handleApiFallback ⟨gate.2, st.cache⟩ url (times 0)
    ⟨fb.1, fb.2, 0⟩

/-! ## Retry controller (part_000, `RetryManager.executeWithRetry`)

The operation is a function of the attempt number.  `maxAttempts` is kept as
an `Int` so that the non-positive case of the JS loop (`for attempt = 1;
attempt <= maxAttempts`) is expressible; the loop then runs
`maxAttempts.toNat` times.  Backoff delays are rationals; `Math.random()` is
a supplied stream `rnd` of rationals in `[0, 1)` indexed by attempt. -/

/-- Outcome of `executeWithRetry`: a returned value; the aggregate
`Error('Operation failed after N attempts. Last error: …')`, which carries
the `maxAttempts` figure `N` and the last underlying error; or the
`TypeError` raised by reading `lastError.message` when `lastError` was never
assigned (zero loop iterations). -/
inductive RetryResult (ε α : Type) where
  | success (value : α)
  | failure (reportedAttempts : Int) (lastError : ε)
  | undefinedDeref
deriving DecidableEq

/-- One full run of `executeWithRetry`: its outcome, how many times the
operation was invoked, and the list of backoff delays actually slept. -/
structure RetryRun (ε α : Type) where
  result : RetryResult ε α
  invocations : Nat
  delays : List ℚ
deriving DecidableEq

/-- The attempt loop of `executeWithRetry` (part_000 lines 405–445).
`fuel` is the number of loop iterations left, `attempt` the current attempt
number, `lastError` the `lastError` variable (absent until first failure). -/
def retryGo {ε α : Type} (op : Nat → Except ε α) (retryCondition : ε → Bool)
    (maxAttempts : Int) (baseDelay mult : ℚ) (jitter : Bool) (rnd : Nat → ℚ) :
    Nat → Nat → Option ε → RetryRun ε α
  | 0, _, lastError =>
      ⟨match lastError with
        | none => .undefinedDeref
        | some e => .failure maxAttempts e, 0, []⟩
  | fuel + 1, attempt, _ =>
      match op attempt with
      | .ok v => ⟨.success v, 1, []⟩
      | .error e =>
          if (attempt : Int) = maxAttempts ∨ retryCondition e = false then
            ⟨.failure maxAttempts e, 1, []⟩
          else
            let d := baseDelay * mult ^ (attempt - 1)
            let d2 := if jitter then d + rnd attempt * d * (1 / 10) else d
            let rest := retryGo op retryCondition maxAttempts baseDelay mult jitter rnd
              fuel (attempt + 1) (some e)
            ⟨rest.result, rest.invocations + 1, d2 :: rest.delays⟩

/-- part_000 `RetryManager.executeWithRetry`. -/
def executeWithRetry {ε α : Type} (op : Nat → Except ε α) (retryCondition : ε → Bool)
    (maxAttempts : Int) (baseDelay mult : ℚ) (jitter : Bool) (rnd : Nat → ℚ) :
    RetryRun ε α :=
  retryGo op retryCondition maxAttempts baseDelay mult jitter rnd maxAttempts.toNat 1 none

/-! ## Cache manager (part_001, `CacheManager`) -/

/-- One entry of part_001 `CacheManager.cache`: `{data, timestamp, ttl}`. -/
structure CacheItem (α : Type) where
  data : α
  timestamp : Nat
  ttl : Nat
deriving DecidableEq

namespace CacheManager

/-- part_001 `CacheManager.isValid`: falsy `timestamp` (0) is invalid;
otherwise fresh iff `now - timestamp < ttl` (JS number arithmetic, hence the
`Int` subtraction). -/
def isValid {α : Type} (item : CacheItem α) (now : Nat) : Bool :=
  if item.timestamp = 0 then false
  else decide ((now : Int) - (item.timestamp : Int) < (item.ttl : Int))

/-- part_001 `CacheManager.get`: miss on absent key; return the data while
valid; delete and miss once invalid. -/
def get {α : Type} (c : List (String × CacheItem α)) (key : String) (now : Nat) :
    Option α × List (String × CacheItem α) :=
  match alistLookup c key with
  | none => (none, c)
  | some item =>
      if isValid item now then (some item.data, c)
      else (none, alistDelete c key)

end CacheManager

/-! ## Health monitor (part_000, `HealthMonitor.checkSystemHealth`) -/

/-- The three component statuses (`'healthy'`, `'degraded'`, `'unhealthy'`). -/
inductive HealthLevel where
  | healthy
  | degraded
  | unhealthy
deriving DecidableEq

/-- What running one registered probe yields: a returned status, or a thrown
exception. -/
inductive ProbeOutcome where
  | ok (status : HealthLevel)
  | threw
deriving DecidableEq

/-- The component entry recorded for one probe: its returned status, or
`'unhealthy'` when it threw. -/
def probeComponentStatus : ProbeOutcome → HealthLevel
  | .ok s => s
  | .threw => .unhealthy

/-- The per-probe update of the `overallHealth` variable in
`checkSystemHealth`: any non-healthy returned status overwrites it with
`'degraded'`; a thrown probe overwrites it with `'unhealthy'`. -/
def overallStep (overall : HealthLevel) (p : ProbeOutcome) : HealthLevel :=
  match p with
  | .ok s => if s = .healthy then overall else .degraded
  | .threw => .unhealthy

/-- The report returned by `checkSystemHealth`. -/
structure HealthReport where
  overall : HealthLevel
  components : List (String × HealthLevel)
deriving DecidableEq

/-- part_000 `HealthMonitor.checkSystemHealth`, over the registered probes
in their registration order with the outcome each produced on this tick. -/
def checkSystemHealth (probes : List (String × ProbeOutcome)) : HealthReport :=
  ⟨probes.foldl (fun o p => overallStep o p.2) .healthy,
   probes.map (fun p => (p.1, probeComponentStatus p.2))⟩

/-- Severity order on statuses, for stating the worst-of aggregation. -/
def HealthLevel.sev : HealthLevel → Nat
  | .healthy => 0
  | .degraded => 1
  | .unhealthy => 2

/-- The worse of two statuses. -/
def worstLevel (a b : HealthLevel) : HealthLevel :=
  if b.sev ≤ a.sev then a else b

/-- Modelled from the spec: the overall status the spec describes, the worst
of all component statuses (a probe that throws counting as UNHEALTHY).  Used
only to state the aggregation claim against `checkSystemHealth`. -/
def specOverallStatus (probes : List (String × ProbeOutcome)) : HealthLevel :=
  probes.foldl (fun o p => worstLevel o (probeComponentStatus p.2)) .healthy

/-! ## Concrete values used in scenario and counterexample theorems -/

/-- A configuration with the source defaults: `retryAttempts 3`,
`circuitBreakerThreshold 5`, `circuitBreakerTimeout 60000`,
`cacheExpiryTime 1800000`. -/
def exampleConfig : Config := ⟨3, 5, 60000, 1800000⟩

/-- An ordinary validated response body. -/
def exampleData : ApiResponse := ⟨[7], none⟩

/-- A fresh service: breaker CLOSED with zero counters, empty cache. -/
def exampleGoodState : ServiceState := ⟨⟨.closed, 0, 0, 0⟩, []⟩

/-- A service whose breaker is OPEN until clock 1000 and whose cache holds an
entry for the options-default key of url "u" that expired at clock 10. -/
def exampleStaleState : ServiceState :=
  ⟨⟨.opened, 5, 0, 1000⟩, [(getCacheKey "u" defaultOpts, ⟨exampleData, 0, 10⟩)]⟩

/-- A service with a CLOSED breaker whose cache holds the same expired entry
for the options-default key of url "u". -/
def exampleEvictState : ServiceState :=
  ⟨⟨.closed, 0, 0, 0⟩, [(getCacheKey "u" defaultOpts, ⟨exampleData, 0, 10⟩)]⟩

/-- A fetch operation that always throws. -/
def opDown : Nat → Except JsError ApiResponse := fun _ => Except.error ⟨"down"⟩

/-- A fetch operation that fails on attempts 1 and 2 and succeeds on 3. -/
def opTwoFailThenOk : Nat → Except JsError ApiResponse :=
  fun k => if k < 3 then Except.error ⟨"E"⟩ else Except.ok ⟨[1], none⟩

/-- A retry operation (over `Nat` errors and values) that always throws 0. -/
def opFailNat : Nat → Except Nat Nat := fun _ => Except.error 0

/-- A retry operation that always throws 5. -/
def opFail5 : Nat → Except Nat Nat := fun _ => Except.error 5

/-- A retry operation that throws its attempt number. -/
def opErrIdNat : Nat → Except Nat Nat := fun k => Except.error k

/-! ## General lemmas about the embedding -/

/-- Below the threshold, a failure in CLOSED only bumps the counter and the
failure stamp. -/
theorem recordApiFailure_below (cfg : Config) (cb : CircuitBreaker) (t : Nat)
    (h : cb.failureCount + 1 < cfg.circuitBreakerThreshold) :
    recordApiFailure cfg cb t =
      { cb with failureCount := cb.failureCount + 1, lastFailureTime := t } := by
  simp only [recordApiFailure]
  rw [if_neg (by omega)]

/-- A run of consecutive failures too short to reach the threshold leaves a
CLOSED breaker CLOSED, adds its length to `failureCount`, and does not touch
`nextAttemptTime`. -/
theorem recordFailures_closed (cfg : Config) (ts : List Nat) :
    ∀ cb : CircuitBreaker, cb.state = .closed →
      cb.failureCount + ts.length < cfg.circuitBreakerThreshold →
      (recordFailures cfg cb ts).state = .closed ∧
      (recordFailures cfg cb ts).failureCount = cb.failureCount + ts.length ∧
      (recordFailures cfg cb ts).nextAttemptTime = cb.nextAttemptTime := by
  induction ts with
  | nil =>
      intro cb hst _
      simp [recordFailures, hst]
  | cons t ts ih =>
      intro cb hst h
      have hstep := recordApiFailure_below cfg cb t (by simp at h; omega)
      have h2 := ih { cb with failureCount := cb.failureCount + 1, lastFailureTime := t }
        (by simp [hst]) (by simp at h ⊢; omega)
      simp only [recordFailures, List.foldl_cons] at h2 ⊢
      rw [hstep]
      refine ⟨h2.1, ?_, h2.2.2⟩
      rw [h2.2.1]
      simp
      omega

/-- `handleApiFallback` returns the stale value of the options-default key,
else the tagged empty structure, and never changes the state. -/
theorem handleApiFallback_eq (st : ServiceState) (url : String) (t : Nat) :
    handleApiFallback st url t = (fallbackOf st.cache url, st) := by
  simp only [handleApiFallback, fallbackOf, getFromCache]
  cases alistLookup st.cache (getCacheKey url defaultOpts) <;> simp

/-! ## Claim theorems -/

/-- C3: for every threshold `N ≥ 1`, a breaker that starts CLOSED with
`failureCount 0` is OPEN after `N` consecutive reported failures, with
`nextAttemptTime` (the probe time) equal to the time of the `N`-th failure
plus the cooldown and `lastFailureTime` equal to that failure time, while
after only `N - 1` consecutive failures it is still CLOSED with
`failureCount = N - 1`.  The failure sequence is written `ts ++ [t]` with
`ts.length + 1 = N`. -/
theorem c3_threshold_opens (cfg : Config) (lft nat0 t : Nat) (ts : List Nat)
    (hlen : ts.length + 1 = cfg.circuitBreakerThreshold) :
    ((recordFailures cfg ⟨.closed, 0, lft, nat0⟩ (ts ++ [t])).state = .opened ∧
     (recordFailures cfg ⟨.closed, 0, lft, nat0⟩ (ts ++ [t])).nextAttemptTime
        = t + cfg.circuitBreakerTimeout ∧
     (recordFailures cfg ⟨.closed, 0, lft, nat0⟩ (ts ++ [t])).lastFailureTime = t) ∧
    ((recordFailures cfg ⟨.closed, 0, lft, nat0⟩ ts).state = .closed ∧
     (recordFailures cfg ⟨.closed, 0, lft, nat0⟩ ts).failureCount = ts.length) := by
  have hmid := recordFailures_closed cfg ts ⟨.closed, 0, lft, nat0⟩ rfl (by simp; omega)
  refine ⟨?_, hmid.1, by rw [hmid.2.1]; simp⟩
  have happ : recordFailures cfg ⟨.closed, 0, lft, nat0⟩ (ts ++ [t])
      = recordApiFailure cfg (recordFailures cfg ⟨.closed, 0, lft, nat0⟩ ts) t := by
    simp [recordFailures, List.foldl_append]
  rw [happ]
  have hcount : (recordFailures cfg ⟨.closed, 0, lft, nat0⟩ ts).failureCount + 1
      = cfg.circuitBreakerThreshold := by
    rw [hmid.2.1]; simp; omega
  simp only [recordApiFailure]
  rw [if_pos (by omega)]
  exact ⟨rfl, rfl, rfl⟩

/-- Witness for C3 at threshold 3: failures at clocks 10, 20 and 30 open the
breaker with probe time 30 + 60000, while 10 and 20 alone leave it CLOSED. -/
theorem c3_threshold_opens_witness :
    ((recordFailures ⟨3, 3, 60000, 300000⟩ ⟨.closed, 0, 0, 0⟩ ([10, 20] ++ [30])).state = .opened ∧
     (recordFailures ⟨3, 3, 60000, 300000⟩ ⟨.closed, 0, 0, 0⟩ ([10, 20] ++ [30])).nextAttemptTime
        = 30 + 60000 ∧
     (recordFailures ⟨3, 3, 60000, 300000⟩ ⟨.closed, 0, 0, 0⟩ ([10, 20] ++ [30])).lastFailureTime = 30) ∧
    ((recordFailures ⟨3, 3, 60000, 300000⟩ ⟨.closed, 0, 0, 0⟩ [10, 20]).state = .closed ∧
     (recordFailures ⟨3, 3, 60000, 300000⟩ ⟨.closed, 0, 0, 0⟩ [10, 20]).failureCount = 2) :=
  c3_threshold_opens ⟨3, 3, 60000, 300000⟩ 0 0 30 [10, 20] (by decide)

/-- C4 counterexample: a breaker OPEN with `nextAttemptTime = 100` still
rejects at clock 100 (`now ≥ nextProbeTime` but no transition to HALF_OPEN),
because the source tests `now > nextAttemptTime` strictly; the pipeline call
at that instant runs the operation zero times.  The claim asserts the
transition happens once `now ≥ nextProbeTime`. -/
theorem c4_counterexample :
    (canProceedWithApiCall ⟨.opened, 5, 40, 100⟩ 100).1 = false ∧
    (canProceedWithApiCall ⟨.opened, 5, 40, 100⟩ 100).2.state = .opened ∧
    (resilientApiCall exampleConfig "u" defaultOpts
        (fun _ => .ok exampleData) (fun _ => 100)
        ⟨⟨.opened, 5, 40, 100⟩, []⟩).invocations = 0 := by
  decide

/-- C4 amended: while the breaker is OPEN and `now ≤ nextProbeTime`
(in particular while `now < nextProbeTime`), every pipeline call is rejected
without invoking the wrapped operation (its call count stays 0), the breaker
is unchanged, and the call returns the fallback; once `now > nextProbeTime`
(strictly), the gate transitions the breaker to HALF_OPEN and lets the next
call through as a trial. -/
theorem c4_open_fastFail (cfg : Config) (url opts : String)
    (op : Nat → Except JsError ApiResponse) (times : Nat → Nat)
    (st : ServiceState) (cb : CircuitBreaker) (now : Nat)
    (hst : st.cb.state = .opened) (ht : times 0 ≤ st.cb.nextAttemptTime)
    (hcb : cb.state = .opened) (hnow : cb.nextAttemptTime < now) :
    ((resilientApiCall cfg url opts op times st).invocations = 0 ∧
     (resilientApiCall cfg url opts op times st).state.cb = st.cb ∧
     (resilientApiCall cfg url opts op times st).result = fallbackOf st.cache url) ∧
    canProceedWithApiCall cb now = (true, { cb with state := .halfOpen }) := by
  constructor
  · have hgate : canProceedWithApiCall st.cb (times 0) = (false, st.cb) := by
      simp only [canProceedWithApiCall, hst]
      rw [if_neg (by omega)]
    simp [resilientApiCall, hgate, handleApiFallback_eq]
  · simp only [canProceedWithApiCall, hcb]
    rw [if_pos hnow]

/-- Witness for C4 amended: rejection at clock 90 with probe time 100, and
the HALF_OPEN transition at clock 101. -/
theorem c4_open_fastFail_witness :
    ((resilientApiCall exampleConfig "u" defaultOpts (fun _ => .ok exampleData)
        (fun _ => 90) ⟨⟨.opened, 5, 40, 100⟩, []⟩).invocations = 0 ∧
     (resilientApiCall exampleConfig "u" defaultOpts (fun _ => .ok exampleData)
        (fun _ => 90) ⟨⟨.opened, 5, 40, 100⟩, []⟩).state.cb = ⟨.opened, 5, 40, 100⟩ ∧
     (resilientApiCall exampleConfig "u" defaultOpts (fun _ => .ok exampleData)
        (fun _ => 90) ⟨⟨.opened, 5, 40, 100⟩, []⟩).result = fallbackOf [] "u") ∧
    canProceedWithApiCall ⟨.opened, 5, 40, 100⟩ 101
      = (true, { (⟨.opened, 5, 40, 100⟩ : CircuitBreaker) with state := .halfOpen }) :=
  c4_open_fastFail exampleConfig "u" defaultOpts (fun _ => .ok exampleData)
    (fun _ => 90) ⟨⟨.opened, 5, 40, 100⟩, []⟩ ⟨.opened, 5, 40, 100⟩ 101
    (by decide) (by decide) (by decide) (by decide)

/-- C5 counterexample: in part_003 (`SelfHealingService.recordApiSuccess`) a
SINGLE success in HALF_OPEN already closes the breaker (there is no half-open
success counter), contradicting the claim that exactly two consecutive
successes are required and that after one success the breaker is still
HALF_OPEN. -/
theorem c5_counterexample :
    recordApiSuccess ⟨.halfOpen, 3, 0, 0⟩ = ⟨.closed, 0, 0, 0⟩ ∧
    (recordApiSuccess ⟨.halfOpen, 3, 0, 0⟩).state ≠ .halfOpen := by
  decide

/-- C5 amended: in part_001 (`APIManager`) each HALF_OPEN success increments
`successCount` and the second success transitions to CLOSED with both
`failureCount` and `successCount` zeroed; in part_003
(`SelfHealingService.recordApiSuccess`) a single HALF_OPEN success already
closes the breaker and zeroes `failureCount`; in both, a reported failure in
HALF_OPEN (whose counter is at or above the threshold, as holds in every
reachable HALF_OPEN state) transitions back to OPEN, in part_003 with the
fresh `nextProbeTime = now + cooldown`. -/
theorem c5_halfOpen_transitions (b : APIBreaker) (cb cb2 : CircuitBreaker)
    (cfg : Config) (threshold t t2 : Nat)
    (hb : b.state = .halfOpen) (hbs : b.successCount = 0)
    (hcb : cb.state = .halfOpen)
    (hcb2 : cb2.state = .halfOpen)
    (hth : cfg.circuitBreakerThreshold ≤ cb2.failureCount + 1)
    (hbth : threshold ≤ b.failureCount + 1) :
    ((APIBreaker.resetCircuitBreaker b).state = .halfOpen ∧
     (APIBreaker.resetCircuitBreaker b).successCount = 1 ∧
     (APIBreaker.resetCircuitBreaker (APIBreaker.resetCircuitBreaker b)).state = .closed ∧
     (APIBreaker.resetCircuitBreaker (APIBreaker.resetCircuitBreaker b)).failureCount = 0 ∧
     (APIBreaker.resetCircuitBreaker (APIBreaker.resetCircuitBreaker b)).successCount = 0) ∧
    (recordApiSuccess cb = { cb with state := .closed, failureCount := 0 }) ∧
    ((recordApiFailure cfg cb2 t).state = .opened ∧
     (recordApiFailure cfg cb2 t).nextAttemptTime = t + cfg.circuitBreakerTimeout) ∧
    (APIBreaker.recordFailure threshold b t2).state = .opened := by
  have h1 : APIBreaker.resetCircuitBreaker b
      = { b with successCount := 1 } := by
    simp only [APIBreaker.resetCircuitBreaker]
    rw [if_pos hb, if_neg (by simp; omega)]
    rw [hbs]
  refine ⟨?_, ?_, ?_, ?_⟩
  · rw [h1]
    have h2 : APIBreaker.resetCircuitBreaker ({ b with successCount := 1 } : APIBreaker)
        = { b with state := .closed, failureCount := 0, successCount := 0 } := by
      simp only [APIBreaker.resetCircuitBreaker]
      rw [if_pos (by simpa using hb), if_pos (by simp)]
    rw [h2]
    simpa using hb
  · simp [recordApiSuccess, hcb]
  · simp only [recordApiFailure]
    rw [if_pos (by omega)]
    exact ⟨rfl, rfl⟩
  · simp only [APIBreaker.recordFailure]
    rw [if_pos (by omega)]

/-- Witness for C5 amended at concrete breakers with threshold 5. -/
theorem c5_halfOpen_transitions_witness :
    ((APIBreaker.resetCircuitBreaker ⟨.halfOpen, 5, 0, 0⟩).state = .halfOpen ∧
     (APIBreaker.resetCircuitBreaker ⟨.halfOpen, 5, 0, 0⟩).successCount = 1 ∧
     (APIBreaker.resetCircuitBreaker (APIBreaker.resetCircuitBreaker ⟨.halfOpen, 5, 0, 0⟩)).state = .closed ∧
     (APIBreaker.resetCircuitBreaker (APIBreaker.resetCircuitBreaker ⟨.halfOpen, 5, 0, 0⟩)).failureCount = 0 ∧
     (APIBreaker.resetCircuitBreaker (APIBreaker.resetCircuitBreaker ⟨.halfOpen, 5, 0, 0⟩)).successCount = 0) ∧
    (recordApiSuccess ⟨.halfOpen, 4, 7, 9⟩
      = { (⟨.halfOpen, 4, 7, 9⟩ : CircuitBreaker) with state := .closed, failureCount := 0 }) ∧
    ((recordApiFailure ⟨3, 5, 60000, 300000⟩ ⟨.halfOpen, 6, 7, 9⟩ 200).state = .opened ∧
     (recordApiFailure ⟨3, 5, 60000, 300000⟩ ⟨.halfOpen, 6, 7, 9⟩ 200).nextAttemptTime = 200 + 60000) ∧
    (APIBreaker.recordFailure 5 ⟨.halfOpen, 5, 0, 0⟩ 300).state = .opened :=
  c5_halfOpen_transitions ⟨.halfOpen, 5, 0, 0⟩ ⟨.halfOpen, 4, 7, 9⟩ ⟨.halfOpen, 6, 7, 9⟩
    ⟨3, 5, 60000, 300000⟩ 5 200 300
    (by decide) (by decide) (by decide) (by decide) (by decide) (by decide)

/-- The `overallHealth` fold of `checkSystemHealth` is decided by the LAST
probe (in registration order) that is not an ordinarily-healthy return:
`'degraded'` when that probe returned a non-healthy status (even
`'unhealthy'`), `'unhealthy'` only when it threw, and the accumulator value
when every probe returned healthy. -/
theorem overall_foldl_char (probes : List (String × ProbeOutcome)) (o : HealthLevel) :
    probes.foldl (fun a p => overallStep a p.2) o =
      (match (probes.reverse.find? fun p => decide (p.2 ≠ ProbeOutcome.ok .healthy)).map Prod.snd with
       | none => o
       | some (.ok _) => .degraded
       | some .threw => .unhealthy) := by
  induction probes using List.reverseRecOn generalizing o with
  | nil => simp
  | append_singleton l x ih =>
      rw [List.foldl_append, List.reverse_append]
      simp only [List.foldl_cons, List.foldl_nil, List.reverse_cons, List.reverse_nil,
        List.nil_append, List.singleton_append, List.find?]
      by_cases hx : x.2 = ProbeOutcome.ok .healthy
      · rw [hx]
        simp only [overallStep, if_pos rfl]
        simpa [hx] using ih o
      · rcases h2 : x.2 with s | _
        · rcases s with s
          cases s with
          | healthy => exact absurd (by rw [h2]) hx
          | degraded => simp [overallStep, h2, hx]
          | unhealthy => simp [overallStep, h2, hx]
        · simp [overallStep, h2, hx]

/-- C2 counterexample: with probes returning HEALTHY, HEALTHY, HEALTHY,
DEGRADED, UNHEALTHY (none throwing), `checkSystemHealth` reports overall
`'degraded'`, not the worst status `'unhealthy'` the claim requires: a probe
that RETURNS `'unhealthy'` only sets the running overall to `'degraded'`
(only a thrown probe sets `'unhealthy'`). -/
theorem c2_counterexample :
    (checkSystemHealth [("api", .ok .healthy), ("config", .ok .healthy),
        ("ui", .ok .healthy), ("cache", .ok .degraded),
        ("performance", .ok .unhealthy)]).overall = .degraded ∧
    specOverallStatus [("api", .ok .healthy), ("config", .ok .healthy),
        ("ui", .ok .healthy), ("cache", .ok .degraded),
        ("performance", .ok .unhealthy)] = .unhealthy ∧
    (checkSystemHealth [("api", .ok .healthy), ("config", .ok .healthy),
        ("ui", .ok .healthy), ("cache", .ok .degraded),
        ("performance", .ok .unhealthy)]).overall ≠
      specOverallStatus [("api", .ok .healthy), ("config", .ok .healthy),
        ("ui", .ok .healthy), ("cache", .ok .degraded),
        ("performance", .ok .unhealthy)] := by
  decide

/-- C2 amended: the overall status of `checkSystemHealth` is not the worst
component status; it is HEALTHY when every probe returns HEALTHY, and
otherwise it is decided by the last probe (in registration order) that did
not return HEALTHY: DEGRADED when that probe returned a status (DEGRADED or
even UNHEALTHY), UNHEALTHY only when that probe threw.  Each component entry
still records a thrown probe as UNHEALTHY.  (In particular 3 HEALTHY probes
plus 1 DEGRADED yield DEGRADED, but a probe returning UNHEALTHY yields
overall DEGRADED, and order matters.) -/
theorem c2_overall_lastBad (probes : List (String × ProbeOutcome)) :
    (checkSystemHealth probes).overall =
      (match (probes.reverse.find? fun p => decide (p.2 ≠ ProbeOutcome.ok .healthy)).map Prod.snd with
       | none => .healthy
       | some (.ok _) => .degraded
       | some .threw => .unhealthy) ∧
    (checkSystemHealth probes).components
      = probes.map (fun p => (p.1, probeComponentStatus p.2)) ∧
    probeComponentStatus .threw = .unhealthy :=
  ⟨overall_foldl_char probes .healthy, rfl, rfl⟩

/-- C8 counterexample: in part_003 an entry stored at clock 0 with ttl 100
(`expires = 100`) is still RETURNED, and not evicted, by a fresh
`getFromCache` read at clock 100, although `now − storedAt = 100 ≥ ttl`; the
source evicts only once `now > expires` strictly.  The claim requires absent
plus eviction at that instant. -/
theorem c8_counterexample :
    getFromCache [("k", ⟨⟨[3], none⟩, 0, 100⟩)] "k" false 100
      = (some ⟨[3], none⟩, [("k", ⟨⟨[3], none⟩, 0, 100⟩)]) ∧
    (getFromCache [("k", ⟨⟨[3], none⟩, 0, 100⟩)] "k" false 100).1 ≠ none := by
  decide

/-- C8 amended: part_001 `CacheManager.get` behaves as claimed — on a
present entry (with a non-zero store stamp not in the future) it returns the
stored value while `now − storedAt < ttl` and returns absent AND evicts the
entry once `now − storedAt ≥ ttl`; part_003 `getFromCache` evicts on a fresh
read only once `now > storedAt + ttl` STRICTLY (still returning the value at
the expiry instant itself), and a stale-allowed read (`allowStale = true`,
the `getAllowStale` of the claim) returns the stored value at any time and
never deletes or modifies the cache. -/
theorem c8_cache_expiry {α : Type} (c : List (String × CacheItem α)) (key : String)
    (item : CacheItem α) (now : Nat) (c2 : Cache) (key2 : String)
    (e : CacheEntry) (now2 : Nat)
    (hl : alistLookup c key = some item) (h0 : 1 ≤ item.timestamp)
    (hle : item.timestamp ≤ now)
    (hl2 : alistLookup c2 key2 = some e) :
    ((item.ttl ≤ now - item.timestamp →
        CacheManager.get c key now = (none, alistDelete c key)) ∧
     (now - item.timestamp < item.ttl →
        CacheManager.get c key now = (some item.data, c))) ∧
    (getFromCache c2 key2 true now2 = (some e.data, c2)) ∧
    (e.expires < now2 → getFromCache c2 key2 false now2 = (none, alistDelete c2 key2)) ∧
    (now2 ≤ e.expires → getFromCache c2 key2 false now2 = (some e.data, c2)) := by
  refine ⟨⟨?_, ?_⟩, ?_, ?_, ?_⟩
  · intro hexp
    have hv : CacheManager.isValid item now = false := by
      simp only [CacheManager.isValid]
      rw [if_neg (by omega)]
      simp only [decide_eq_false_iff_not, not_lt]
      omega
    simp [CacheManager.get, hl, hv]
  · intro hfresh
    have hv : CacheManager.isValid item now = true := by
      simp only [CacheManager.isValid]
      rw [if_neg (by omega)]
      simp only [decide_eq_true_eq]
      omega
    simp [CacheManager.get, hl, hv]
  · simp [getFromCache, hl2]
  · intro hexp
    simp [getFromCache, hl2, hexp]
  · intro hfresh
    simp only [getFromCache, hl2]
    rw [if_neg (by simp; omega)]

/-- Witness for C8 amended on concrete caches: a part_001 entry stored at 5
with ttl 100 read at clocks 105 and 104, and a part_003 entry with
`expires = 100` read stale, fresh-after-expiry (101) and fresh-at-expiry
(100). -/
theorem c8_cache_expiry_witness :
    ((100 ≤ 105 - 5 →
        CacheManager.get [("k", (⟨3, 5, 100⟩ : CacheItem Nat))] "k" 105
          = (none, alistDelete [("k", (⟨3, 5, 100⟩ : CacheItem Nat))] "k")) ∧
     (105 - 5 < 100 →
        CacheManager.get [("k", (⟨3, 5, 100⟩ : CacheItem Nat))] "k" 105
          = (some 3, [("k", (⟨3, 5, 100⟩ : CacheItem Nat))]))) ∧
    (getFromCache [("k", ⟨⟨[3], none⟩, 0, 100⟩)] "k" true 500
      = (some ⟨[3], none⟩, [("k", ⟨⟨[3], none⟩, 0, 100⟩)])) ∧
    ((⟨⟨[3], none⟩, 0, 100⟩ : CacheEntry).expires < 500 →
      getFromCache [("k", ⟨⟨[3], none⟩, 0, 100⟩)] "k" false 500
        = (none, alistDelete [("k", ⟨⟨[3], none⟩, 0, 100⟩)] "k")) ∧
    (500 ≤ (⟨⟨[3], none⟩, 0, 100⟩ : CacheEntry).expires →
      getFromCache [("k", ⟨⟨[3], none⟩, 0, 100⟩)] "k" false 500
        = (some ⟨[3], none⟩, [("k", ⟨⟨[3], none⟩, 0, 100⟩)])) :=
  c8_cache_expiry [("k", (⟨3, 5, 100⟩ : CacheItem Nat))] "k" ⟨3, 5, 100⟩ 105
    [("k", ⟨⟨[3], none⟩, 0, 100⟩)] "k" ⟨⟨[3], none⟩, 0, 100⟩ 500
    (by decide) (by decide) (by decide) (by decide)

/-- Unfolding of the retry loop for zero remaining iterations. -/
theorem retryGo_zero {ε α : Type} (op : Nat → Except ε α) (cond : ε → Bool)
    (M : Int) (D mult : ℚ) (jit : Bool) (rnd : Nat → ℚ) (attempt : Nat) (le : Option ε) :
    retryGo op cond M D mult jit rnd 0 attempt le =
      ⟨match le with
        | none => .undefinedDeref
        | some e => .failure M e, 0, []⟩ := rfl

/-- Unfolding of one iteration of the retry loop. -/
theorem retryGo_succ {ε α : Type} (op : Nat → Except ε α) (cond : ε → Bool)
    (M : Int) (D mult : ℚ) (jit : Bool) (rnd : Nat → ℚ)
    (fuel attempt : Nat) (le : Option ε) :
    retryGo op cond M D mult jit rnd (fuel + 1) attempt le =
      (match op attempt with
       | .ok v => ⟨.success v, 1, []⟩
       | .error e =>
          if (attempt : Int) = M ∨ cond e = false then ⟨.failure M e, 1, []⟩
          else
            ⟨(retryGo op cond M D mult jit rnd fuel (attempt + 1) (some e)).result,
             (retryGo op cond M D mult jit rnd fuel (attempt + 1) (some e)).invocations + 1,
             (if jit then D * mult ^ (attempt - 1) + rnd attempt * (D * mult ^ (attempt - 1)) * (1 / 10)
              else D * mult ^ (attempt - 1)) ::
               (retryGo op cond M D mult jit rnd fuel (attempt + 1) (some e)).delays⟩) := rfl

/-- Unfolding of one iteration whose attempt succeeds. -/
theorem retryGo_succ_ok {ε α : Type} (op : Nat → Except ε α) (cond : ε → Bool)
    (M : Int) (D mult : ℚ) (jit : Bool) (rnd : Nat → ℚ)
    (fuel attempt : Nat) (le : Option ε) (v : α) (hv : op attempt = .ok v) :
    retryGo op cond M D mult jit rnd (fuel + 1) attempt le = ⟨.success v, 1, []⟩ := by
  rw [retryGo_succ, hv]

/-- Unfolding of one iteration whose attempt fails. -/
theorem retryGo_succ_err {ε α : Type} (op : Nat → Except ε α) (cond : ε → Bool)
    (M : Int) (D mult : ℚ) (jit : Bool) (rnd : Nat → ℚ)
    (fuel attempt : Nat) (le : Option ε) (e : ε) (he : op attempt = .error e) :
    retryGo op cond M D mult jit rnd (fuel + 1) attempt le =
      (if (attempt : Int) = M ∨ cond e = false then ⟨.failure M e, 1, []⟩
       else
        ⟨(retryGo op cond M D mult jit rnd fuel (attempt + 1) (some e)).result,
         (retryGo op cond M D mult jit rnd fuel (attempt + 1) (some e)).invocations + 1,
         (if jit then D * mult ^ (attempt - 1) + rnd attempt * (D * mult ^ (attempt - 1)) * (1 / 10)
          else D * mult ^ (attempt - 1)) ::
           (retryGo op cond M D mult jit rnd fuel (attempt + 1) (some e)).delays⟩) := by
  rw [retryGo_succ, he]

/-- With an operation that fails on every attempt and an always-true retry
predicate, the loop runs its full fuel, invokes the operation once per
iteration, and ends in the aggregate failure carrying the last error. -/
theorem retryGo_allFail {ε α : Type} (op : Nat → Except ε α) (err : Nat → ε)
    (hop : ∀ k, op k = .error (err k)) (M : Int) (D mult : ℚ) (jit : Bool)
    (rnd : Nat → ℚ) :
    ∀ (fuel attempt : Nat) (le : Option ε), 1 ≤ fuel →
      (attempt : Int) + (fuel : Int) = M + 1 →
      (retryGo op (fun _ => true) M D mult jit rnd fuel attempt le).result
          = .failure M (err (attempt + fuel - 1)) ∧
      (retryGo op (fun _ => true) M D mult jit rnd fuel attempt le).invocations = fuel := by
  intro fuel
  induction fuel with
  | zero => intro attempt le h _; omega
  | succ fuel ih =>
      intro attempt le _ hinv
      rw [retryGo_succ_err op (fun _ => true) M D mult jit rnd fuel attempt le
        (err attempt) (hop attempt)]
      by_cases hf : fuel = 0
      · subst hf
        have hM : (attempt : Int) = M := by push_cast at hinv; omega
        rw [if_pos (Or.inl hM)]
        exact ⟨by simp, rfl⟩
      · have hne : ¬((attempt : Int) = M ∨ (fun _ : ε => true) (err attempt) = false) := by
          push_cast at hinv
          simp only [Bool.true_eq_false, or_false]
          omega
        rw [if_neg hne]
        obtain ⟨hres, hcnt⟩ := ih (attempt + 1) (some (err attempt)) (by omega)
          (by push_cast at hinv ⊢; omega)
        have hidx : attempt + 1 + fuel - 1 = attempt + (fuel + 1) - 1 := by omega
        rw [hidx] at hres
        exact ⟨hres, by rw [hcnt]⟩

/-- With at least one iteration of fuel, the retry loop invokes the operation
between once and `fuel` times, and ends either in a success value the
operation returned at some in-range attempt or in the aggregate failure
carrying an error the operation threw at some in-range attempt (never in the
undefined-dereference outcome). -/
theorem retryGo_bounds {ε α : Type} (op : Nat → Except ε α) (cond : ε → Bool)
    (M : Int) (D mult : ℚ) (jit : Bool) (rnd : Nat → ℚ) :
    ∀ (fuel attempt : Nat) (le : Option ε), 1 ≤ fuel →
      (1 ≤ (retryGo op cond M D mult jit rnd fuel attempt le).invocations ∧
       (retryGo op cond M D mult jit rnd fuel attempt le).invocations ≤ fuel) ∧
      ((∃ k v, attempt ≤ k ∧ k < attempt + fuel ∧ op k = .ok v ∧
          (retryGo op cond M D mult jit rnd fuel attempt le).result = .success v) ∨
       (∃ k e, attempt ≤ k ∧ k < attempt + fuel ∧ op k = .error e ∧
          (retryGo op cond M D mult jit rnd fuel attempt le).result = .failure M e)) := by
  intro fuel
  induction fuel with
  | zero => intro attempt le h; omega
  | succ fuel ih =>
      intro attempt le _
      cases hop : op attempt with
      | ok v =>
          rw [retryGo_succ_ok op cond M D mult jit rnd fuel attempt le v hop]
          exact ⟨⟨by simp, by simp⟩,
            Or.inl ⟨attempt, v, le_refl _, by omega, hop, by simp⟩⟩
      | error e =>
          rw [retryGo_succ_err op cond M D mult jit rnd fuel attempt le e hop]
          by_cases hguard : (attempt : Int) = M ∨ cond e = false
          · rw [if_pos hguard]
            exact ⟨⟨by simp, by simp⟩,
              Or.inr ⟨attempt, e, le_refl _, by omega, hop, by simp⟩⟩
          · rw [if_neg hguard]
            by_cases hf : fuel = 0
            · subst hf
              rw [retryGo_zero]
              refine ⟨⟨by simp, by simp⟩, ?_⟩
              right
              refine ⟨attempt, e, le_refl _, by omega, hop, by simp⟩
            · obtain ⟨⟨hlo, hhi⟩, hres⟩ := ih (attempt + 1) (some e) (by omega)
              refine ⟨⟨by simp, by simpa using hhi⟩, ?_⟩
              rcases hres with ⟨k, v, hk1, hk2, hk3, hk4⟩ | ⟨k, er, hk1, hk2, hk3, hk4⟩
              · exact Or.inl ⟨k, v, by omega, by omega, hk3, by simpa using hk4⟩
              · exact Or.inr ⟨k, er, by omega, by omega, hk3, by simpa using hk4⟩

/-- C7 counterexample: with `maxAttempts = 3` and a retry predicate that
rejects the first error, `executeWithRetry` makes exactly ONE invocation and
no delay, but the aggregate error it fails with carries the configured
figure 3 (the source message is built from `maxAttempts`), not the number of
attempts actually made (1). -/
theorem c7_counterexample :
    executeWithRetry (fun _ => Except.error (0 : Nat)) (fun _ => false) 3 1 2 false (fun _ => 0)
      = (⟨.failure 3 0, 1, []⟩ : RetryRun Nat Nat) ∧
    (3 : Int) ≠ (1 : Int) := by
  exact ⟨by decide, by decide⟩

/-- C7 amended: `executeWithRetry` stops when the failing attempt was the
last allowed one or when the retry predicate rejects the error, and then
fails with an aggregate error carrying the CONFIGURED `maxAttempts` (not the
number of attempts actually made) and the last underlying error.  A predicate
returning false on the first failure yields exactly one invocation and no
backoff delay; an operation failing on every attempt with an always-true
predicate yields exactly `maxAttempts` invocations and the aggregate failure
carrying the last error. -/
theorem c7_stop_conditions {ε α : Type} (op op2 : Nat → Except ε α) (cond : ε → Bool)
    (M : Int) (D mult : ℚ) (jit : Bool) (rnd : Nat → ℚ) (e : ε) (err : Nat → ε)
    (hM : 1 ≤ M) (h1 : op 1 = .error e) (hc : cond e = false)
    (hop2 : ∀ k, op2 k = .error (err k)) :
    executeWithRetry op cond M D mult jit rnd = ⟨.failure M e, 1, []⟩ ∧
    ((executeWithRetry op2 (fun _ => true) M D mult jit rnd).result
        = .failure M (err M.toNat) ∧
     (executeWithRetry op2 (fun _ => true) M D mult jit rnd).invocations = M.toNat) := by
  constructor
  · obtain ⟨f, hf⟩ : ∃ f, M.toNat = f + 1 := ⟨M.toNat - 1, by omega⟩
    rw [executeWithRetry, hf,
      retryGo_succ_err op cond M D mult jit rnd f 1 none e h1,
      if_pos (Or.inr hc)]
  · have h := retryGo_allFail op2 err hop2 M D mult jit rnd M.toNat 1 none
      (by omega) (by push_cast; omega)
    rw [executeWithRetry]
    have hidx : 1 + M.toNat - 1 = M.toNat := by omega
    rw [hidx] at h
    exact h

/-- Witness for C7 amended at `maxAttempts = 3`. -/
theorem c7_stop_conditions_witness :
    executeWithRetry opFail5 (fun _ => false) 3 1 2 false (fun _ => 0)
      = (⟨.failure 3 5, 1, []⟩ : RetryRun Nat Nat) ∧
    ((executeWithRetry opErrIdNat (fun _ => true) 3 1 2 false (fun _ => 0)).result
        = .failure 3 ((3 : Int).toNat) ∧
     (executeWithRetry opErrIdNat (fun _ => true) 3 1 2 false (fun _ => 0)).invocations
        = (3 : Int).toNat) :=
  c7_stop_conditions opFail5 opErrIdNat (fun _ => false)
    3 1 2 false (fun _ => 0) 5 (fun k => k)
    (by decide) rfl rfl (fun _ => rfl)

/-- C10: `executeWithRetry` is well-defined exactly under `maxAttempts ≥ 1`.
For `maxAttempts ≤ 0` the attempt loop runs zero times, the operation is
never invoked, and the final failure path dereferences the never-assigned
`lastError` (the undefined-dereference outcome) instead of producing the
aggregate error.  For `maxAttempts ≥ 1` the operation is invoked at least
once and at most `maxAttempts` times, and the call either returns a value
the operation produced at some attempt in range or throws the aggregate
error carrying an error the operation threw at some attempt in range. -/
theorem c10_maxAttempts_precondition {ε α : Type} (op : Nat → Except ε α)
    (cond : ε → Bool) (M : Int) (D mult : ℚ) (jit : Bool) (rnd : Nat → ℚ) :
    (M ≤ 0 → executeWithRetry op cond M D mult jit rnd = ⟨.undefinedDeref, 0, []⟩) ∧
    (1 ≤ M →
      (1 ≤ (executeWithRetry op cond M D mult jit rnd).invocations ∧
       ((executeWithRetry op cond M D mult jit rnd).invocations : Int) ≤ M) ∧
      ((∃ (k : Nat) (v : α), 1 ≤ k ∧ (k : Int) ≤ M ∧ op k = .ok v ∧
          (executeWithRetry op cond M D mult jit rnd).result = .success v) ∨
       (∃ (k : Nat) (e : ε), 1 ≤ k ∧ (k : Int) ≤ M ∧ op k = .error e ∧
          (executeWithRetry op cond M D mult jit rnd).result = .failure M e))) := by
  constructor
  · intro hM
    have h0 : M.toNat = 0 := by omega
    rw [executeWithRetry, h0, retryGo_zero]
  · intro hM
    have h := retryGo_bounds op cond M D mult jit rnd M.toNat 1 none (by omega)
    rw [executeWithRetry]
    obtain ⟨⟨hlo, hhi⟩, hres⟩ := h
    refine ⟨⟨hlo, ?_⟩, ?_⟩
    · have : (M.toNat : Int) = M := by omega
      omega
    · rcases hres with ⟨k, v, hk1, hk2, hk3, hk4⟩ | ⟨k, e, hk1, hk2, hk3, hk4⟩
      · exact Or.inl ⟨k, v, hk1, by omega, hk3, hk4⟩
      · exact Or.inr ⟨k, e, hk1, by omega, hk3, hk4⟩

/-- Witness for C10 at `maxAttempts = -1` (never invoked, undefined
dereference) and `maxAttempts = 2` (bounded invocations, aggregate error). -/
theorem c10_maxAttempts_precondition_witness :
    executeWithRetry opFailNat (fun _ => true) (-1) 1 2 false (fun _ => 0)
      = (⟨.undefinedDeref, 0, []⟩ : RetryRun Nat Nat) ∧
    ((1 ≤ (executeWithRetry opFailNat (fun _ => true) 2 1 2 false (fun _ => 0)).invocations ∧
      ((executeWithRetry opFailNat (fun _ => true) 2 1 2 false (fun _ => 0)).invocations : Int) ≤ 2) ∧
     ((∃ (k : Nat) (v : Nat), 1 ≤ k ∧ (k : Int) ≤ 2 ∧ opFailNat k = Except.ok v ∧
         (executeWithRetry opFailNat (fun _ => true) 2 1 2 false (fun _ => 0)).result
           = .success v) ∨
      (∃ (k : Nat) (e : Nat), 1 ≤ k ∧ (k : Int) ≤ 2 ∧ opFailNat k = Except.error e ∧
         (executeWithRetry opFailNat (fun _ => true) 2 1 2 false (fun _ => 0)).result
           = .failure 2 e))) :=
  ⟨(c10_maxAttempts_precondition opFailNat (fun _ => true) (-1) 1 2 false (fun _ => 0)).1
      (by decide),
   (c10_maxAttempts_precondition opFailNat (fun _ => true) 2 1 2 false (fun _ => 0)).2
      (by decide)⟩

/-- With an operation failing on every attempt and an always-true retry
predicate, the delays slept by the retry loop are exactly the
`baseDelay * multiplier ^ (attempt - 1)` backoffs of the non-final attempts,
each inflated by `rnd attempt * delay * 1/10` when jitter is on. -/
theorem retryGo_allFail_delays {ε α : Type} (op : Nat → Except ε α) (err : Nat → ε)
    (hop : ∀ k, op k = .error (err k)) (M : Int) (D mult : ℚ) (jit : Bool)
    (rnd : Nat → ℚ) :
    ∀ (fuel attempt : Nat) (le : Option ε), (attempt : Int) + (fuel : Int) = M + 1 →
      (retryGo op (fun _ => true) M D mult jit rnd fuel attempt le).delays
        = (List.range (fuel - 1)).map (fun i =>
            if jit then D * mult ^ (attempt + i - 1)
                + rnd (attempt + i) * (D * mult ^ (attempt + i - 1)) * (1 / 10)
            else D * mult ^ (attempt + i - 1)) := by
  intro fuel
  induction fuel with
  | zero =>
      intro attempt le _
      rw [retryGo_zero]
      simp
  | succ fuel ih =>
      intro attempt le hinv
      rw [retryGo_succ_err op (fun _ => true) M D mult jit rnd fuel attempt le
        (err attempt) (hop attempt)]
      by_cases hf : fuel = 0
      · subst hf
        have hM : (attempt : Int) = M := by push_cast at hinv; omega
        rw [if_pos (Or.inl hM)]
        simp
      · have hne : ¬((attempt : Int) = M ∨ (fun _ : ε => true) (err attempt) = false) := by
          push_cast at hinv
          simp only [Bool.true_eq_false, or_false]
          omega
        rw [if_neg hne]
        obtain ⟨f, rfl⟩ : ∃ f, fuel = f + 1 := ⟨fuel - 1, by omega⟩
        have hrec := ih (attempt + 1) (some (err attempt)) (by push_cast at hinv ⊢; omega)
        simp only at hrec ⊢
        rw [hrec]
        have hr : f + 1 + 1 - 1 = f + 1 := by omega
        have hr2 : f + 1 - 1 = f := by omega
        rw [hr, hr2, List.range_succ_eq_map, List.map_cons, List.map_map]
        have h0 : attempt + 0 = attempt := by omega
        rw [h0]
        congr 1
        apply List.map_congr_left
        intro i _
        have : attempt + 1 + i = attempt + (i + 1) := by omega
        simp [Function.comp, Nat.succ_eq_add_one, this]

/-- C6: for every `baseDelay D ≥ 0` with multiplier 2 and `maxAttempts 4`
(operation failing each attempt, predicate always true), the delays computed
by `executeWithRetry` between attempts 1→2, 2→3, 3→4 are exactly
`D, 2D, 4D` when jitter is off — three delays for four attempts — and with
jitter on (given `Math.random` values in `[0, 1)`), the k-th delay lies in
the closed interval `[D·2^(k-1), 1.1·D·2^(k-1)]`. -/
theorem c6_backoff_sequence {ε α : Type} (D : ℚ) (rnd : Nat → ℚ)
    (op : Nat → Except ε α) (err : Nat → ε) (hop : ∀ k, op k = .error (err k)) :
    (executeWithRetry op (fun _ => true) 4 D 2 false rnd).delays = [D, 2 * D, 4 * D] ∧
    (0 ≤ D → (∀ k, 0 ≤ rnd k ∧ rnd k < 1) →
      ∃ d1 d2 d3,
        (executeWithRetry op (fun _ => true) 4 D 2 true rnd).delays = [d1, d2, d3] ∧
        D ≤ d1 ∧ d1 ≤ 11 / 10 * D ∧
        2 * D ≤ d2 ∧ d2 ≤ 11 / 10 * (2 * D) ∧
        4 * D ≤ d3 ∧ d3 ≤ 11 / 10 * (4 * D)) := by
  have hrange : List.range 3 = [0, 1, 2] := rfl
  constructor
  · have key := retryGo_allFail_delays op err hop 4 D 2 false rnd 4 1 none (by norm_num)
    rw [show (executeWithRetry op (fun _ => true) 4 D 2 false rnd).delays
        = (retryGo op (fun _ => true) 4 D 2 false rnd 4 1 none).delays from rfl,
      key, hrange]
    norm_num
    exact ⟨mul_comm D 2, mul_comm D 4⟩
  · intro hD hrnd
    have key := retryGo_allFail_delays op err hop 4 D 2 true rnd 4 1 none (by norm_num)
    rw [show (executeWithRetry op (fun _ => true) 4 D 2 true rnd).delays
        = (retryGo op (fun _ => true) 4 D 2 true rnd 4 1 none).delays from rfl,
      key, hrange]
    norm_num
    refine ⟨_, _, _, ⟨rfl, rfl, rfl⟩, ?_, ?_, ?_, ?_, ?_, ?_⟩
    · nlinarith [(hrnd 1).1, (hrnd 1).2, mul_nonneg (hrnd 1).1 hD]
    · nlinarith [(hrnd 1).1, (hrnd 1).2, mul_nonneg (hrnd 1).1 hD,
        mul_le_mul_of_nonneg_right (le_of_lt (hrnd 1).2) hD]
    · nlinarith [(hrnd 2).1, (hrnd 2).2, mul_nonneg (hrnd 2).1 hD]
    · nlinarith [(hrnd 2).1, (hrnd 2).2, mul_nonneg (hrnd 2).1 hD,
        mul_le_mul_of_nonneg_right (le_of_lt (hrnd 2).2) hD]
    · nlinarith [(hrnd 3).1, (hrnd 3).2, mul_nonneg (hrnd 3).1 hD]
    · nlinarith [(hrnd 3).1, (hrnd 3).2, mul_nonneg (hrnd 3).1 hD,
        mul_le_mul_of_nonneg_right (le_of_lt (hrnd 3).2) hD]

/-- Witness for C6 at `D = 1000` with `Math.random` constantly 1/2: the
no-jitter delays are 1000, 2000, 4000 and the jitter delays 1050, 2100, 4200
lie in the claimed closed intervals. -/
theorem c6_backoff_sequence_witness :
    (executeWithRetry opErrIdNat (fun _ => true) 4 1000 2 false (fun _ => 1 / 2)).delays
      = [1000, 2 * 1000, 4 * 1000] ∧
    (0 ≤ (1000 : ℚ) → (∀ k : Nat, 0 ≤ (fun _ : Nat => (1 / 2 : ℚ)) k ∧
        (fun _ : Nat => (1 / 2 : ℚ)) k < 1) →
      ∃ d1 d2 d3,
        (executeWithRetry opErrIdNat (fun _ => true) 4 1000 2 true (fun _ => 1 / 2)).delays
          = [d1, d2, d3] ∧
        1000 ≤ d1 ∧ d1 ≤ 11 / 10 * 1000 ∧
        2 * 1000 ≤ d2 ∧ d2 ≤ 11 / 10 * (2 * 1000) ∧
        4 * 1000 ≤ d3 ∧ d3 ≤ 11 / 10 * (4 * 1000)) :=
  c6_backoff_sequence 1000 (fun _ => 1 / 2) opErrIdNat (fun k => k) (fun _ => rfl)

/-- A fresh cache read of an absent key misses and leaves the cache alone. -/
theorem getFromCache_absent (c : Cache) (key : String) (b : Bool) (now : Nat)
    (h : alistLookup c key = none) : getFromCache c key b now = (none, c) := by
  simp [getFromCache, h]

/-- Unfolding of one iteration of the `resilientApiCall` retry loop. -/
theorem apiLoop_succ (cfg : Config) (url opts : String)
    (op : Nat → Except JsError ApiResponse) (times : Nat → Nat)
    (fuel attempt inv : Nat) (st : ServiceState) :
    apiLoop cfg url opts op times (fuel + 1) attempt inv st =
      (match getFromCache st.cache (getCacheKey url opts) false (times attempt) with
       | (some d, c2) => ⟨d, ⟨recordApiSuccess st.cb, c2⟩, inv⟩
       | (none, c2) =>
          match op attempt with
          | .ok raw =>
              if raw.errorTag.isSome then
                if attempt = cfg.retryAttempts then
                  ⟨(handleApiFallback ⟨recordApiFailure cfg st.cb (times attempt), c2⟩ url (times attempt)).1,
                   (handleApiFallback ⟨recordApiFailure cfg st.cb (times attempt), c2⟩ url (times attempt)).2,
                   inv + 1⟩
                else
                  apiLoop cfg url opts op times fuel (attempt + 1) (inv + 1)
                    ⟨recordApiFailure cfg st.cb (times attempt), c2⟩
              else
                ⟨raw, ⟨recordApiSuccess st.cb,
                  setCache cfg c2 (getCacheKey url opts) raw (times attempt)⟩, inv + 1⟩
          | .error _ =>
              if attempt = cfg.retryAttempts then
                ⟨(handleApiFallback ⟨recordApiFailure cfg st.cb (times attempt), c2⟩ url (times attempt)).1,
                 (handleApiFallback ⟨recordApiFailure cfg st.cb (times attempt), c2⟩ url (times attempt)).2,
                 inv + 1⟩
              else
                apiLoop cfg url opts op times fuel (attempt + 1) (inv + 1)
                  ⟨recordApiFailure cfg st.cb (times attempt), c2⟩) := rfl

/-- One failing loop iteration (cache miss, attempt fails): record the
breaker failure, then either break to the fallback (last attempt) or
continue. -/
theorem apiLoop_fail_step (cfg : Config) (url opts : String)
    (op : Nat → Except JsError ApiResponse) (times : Nat → Nat)
    (fuel attempt inv : Nat) (st : ServiceState) (c2 : Cache)
    (hmiss : getFromCache st.cache (getCacheKey url opts) false (times attempt) = (none, c2))
    (hfail : attemptFails (op attempt) = true) :
    apiLoop cfg url opts op times (fuel + 1) attempt inv st =
      (if attempt = cfg.retryAttempts then
        ⟨fallbackOf c2 url, ⟨recordApiFailure cfg st.cb (times attempt), c2⟩, inv + 1⟩
      else
        apiLoop cfg url opts op times fuel (attempt + 1) (inv + 1)
          ⟨recordApiFailure cfg st.cb (times attempt), c2⟩) := by
  rw [apiLoop_succ, hmiss]
  cases hop : op attempt with
  | ok raw =>
      have htag : raw.errorTag.isSome = true := by
        have h2 := hfail
        rw [attemptFails.eq_def, hop] at h2
        exact h2
      simp only [htag, if_true, handleApiFallback_eq]
  | error e =>
      simp only [handleApiFallback_eq]

/-- One succeeding loop iteration (cache miss, attempt returns a body with
no error field): cache the validated body, report the success, return it. -/
theorem apiLoop_success_step (cfg : Config) (url opts : String)
    (op : Nat → Except JsError ApiResponse) (times : Nat → Nat)
    (fuel attempt inv : Nat) (st : ServiceState) (c2 : Cache) (raw : ApiResponse)
    (hmiss : getFromCache st.cache (getCacheKey url opts) false (times attempt) = (none, c2))
    (hok : op attempt = .ok raw) (htag : raw.errorTag = none) :
    apiLoop cfg url opts op times (fuel + 1) attempt inv st =
      ⟨raw, ⟨recordApiSuccess st.cb,
        setCache cfg c2 (getCacheKey url opts) raw (times attempt)⟩, inv + 1⟩ := by
  rw [apiLoop_succ, hmiss]
  simp only [hok, htag, Option.isSome_none, Bool.false_eq_true, if_false]

/-- When the key the loop reads is absent from the cache and every attempt
fails, the loop ends in `handleApiFallback` on the unchanged cache. -/
theorem apiLoop_allFail (cfg : Config) (url opts : String)
    (op : Nat → Except JsError ApiResponse) (times : Nat → Nat)
    (hfail : ∀ k, attemptFails (op k) = true) :
    ∀ (fuel attempt inv : Nat) (st : ServiceState),
      alistLookup st.cache (getCacheKey url opts) = none →
      (apiLoop cfg url opts op times fuel attempt inv st).result = fallbackOf st.cache url ∧
      (apiLoop cfg url opts op times fuel attempt inv st).state.cache = st.cache := by
  intro fuel
  induction fuel with
  | zero =>
      intro attempt inv st _
      rw [show apiLoop cfg url opts op times 0 attempt inv st
          = ⟨(handleApiFallback st url (times attempt)).1,
             (handleApiFallback st url (times attempt)).2, inv⟩ from rfl,
        handleApiFallback_eq]
      exact ⟨rfl, rfl⟩
  | succ fuel ih =>
      intro attempt inv st hkey
      rw [apiLoop_fail_step cfg url opts op times fuel attempt inv st st.cache
        (getFromCache_absent st.cache (getCacheKey url opts) false (times attempt) hkey)
        (hfail attempt)]
      by_cases hlast : attempt = cfg.retryAttempts
      · rw [if_pos hlast]
        exact ⟨rfl, rfl⟩
      · rw [if_neg hlast]
        exact ih (attempt + 1) (inv + 1)
          ⟨recordApiFailure cfg st.cb (times attempt), st.cache⟩ hkey

/-- C1 counterexample: a pipeline call that succeeds normally and a pipeline
call that is breaker-rejected and served the STALE cache entry return the
very same untagged value (here `exampleData`, with `errorTag = none`): no
explicit tag on the result lets the caller distinguish good data from stale
data.  The two runs differ (the first invokes the operation once, the second
not at all), only the degraded EMPTY result carries a tag. -/
theorem c1_counterexample :
    (resilientApiCall exampleConfig "u" defaultOpts (fun _ => .ok exampleData)
        (fun _ => 0) exampleGoodState).result
      = (resilientApiCall exampleConfig "u" defaultOpts opDown
        (fun _ => 100) exampleStaleState).result ∧
    (resilientApiCall exampleConfig "u" defaultOpts (fun _ => .ok exampleData)
        (fun _ => 0) exampleGoodState).invocations = 1 ∧
    (resilientApiCall exampleConfig "u" defaultOpts opDown
        (fun _ => 100) exampleStaleState).invocations = 0 ∧
    (resilientApiCall exampleConfig "u" defaultOpts opDown
        (fun _ => 100) exampleStaleState).result.errorTag = none := by
  decide

/-- C1 amended: `resilientApiCall` never throws (the embedding is total);
when the breaker rejects the call or all retry attempts fail (and the
request's own cache key is absent), it returns the stale value stored under
the OPTIONS-DEFAULT cache key `url ++ "\x7b\x7d"` if one is present and
otherwise the declared empty result, which alone carries the explicit
`error.type = "fallback"` tag — stale data is returned untagged and is not
distinguishable from good data by any tag.  Moreover, on the
retries-exhausted path with default options, an expired entry for the
request key has already been evicted by the in-loop freshness check, so the
call returns the tagged EMPTY result even though a stale entry existed when
the call began: the stale fallback only ever serves the breaker-rejected
path or a request whose options differ from the default. -/
theorem c1_fallback_policy :
    (∀ (cfg : Config) (url opts : String) (op : Nat → Except JsError ApiResponse)
       (times : Nat → Nat) (st : ServiceState),
      alistLookup st.cache (getCacheKey url opts) = none →
      (∀ k, attemptFails (op k) = true) →
      (resilientApiCall cfg url opts op times st).result = fallbackOf st.cache url ∧
      fallbackResponse.errorTag = some "fallback" ∧ fallbackResponse.items = []) ∧
    (∀ (cfg : Config) (url : String) (op : Nat → Except JsError ApiResponse)
       (times : Nat → Nat) (e : CacheEntry) (lft nat0 : Nat),
      1 ≤ cfg.retryAttempts →
      (∀ k, attemptFails (op k) = true) →
      e.expires < times 1 →
      (resilientApiCall cfg url defaultOpts op times
        ⟨⟨.closed, 0, lft, nat0⟩, [(getCacheKey url defaultOpts, e)]⟩).result
        = fallbackResponse) := by
  constructor
  · intro cfg url opts op times st hkey hfail
    refine ⟨?_, rfl, rfl⟩
    simp only [resilientApiCall]
    rcases hgate : canProceedWithApiCall st.cb (times 0) with ⟨b, cb2⟩
    cases b
    · rw [if_neg (by simp)]
      simp [handleApiFallback_eq]
    · rw [if_pos (by simp)]
      exact (apiLoop_allFail cfg url opts op times hfail
        cfg.retryAttempts 1 0 ⟨cb2, st.cache⟩ hkey).1
  · intro cfg url op times e lft nat0 hr hfail hexp
    have hstart : resilientApiCall cfg url defaultOpts op times
        ⟨⟨.closed, 0, lft, nat0⟩, [(getCacheKey url defaultOpts, e)]⟩
        = apiLoop cfg url defaultOpts op times cfg.retryAttempts 1 0
            ⟨⟨.closed, 0, lft, nat0⟩, [(getCacheKey url defaultOpts, e)]⟩ := rfl
    rw [hstart]
    obtain ⟨f, hf⟩ : ∃ f, cfg.retryAttempts = f + 1 := ⟨cfg.retryAttempts - 1, by omega⟩
    rw [hf]
    have hmiss : getFromCache [(getCacheKey url defaultOpts, e)] (getCacheKey url defaultOpts)
        false (times 1) = (none, []) := by
      simp [getFromCache, alistLookup, alistDelete, hexp]
    rw [apiLoop_fail_step cfg url defaultOpts op times f 1 0
      ⟨⟨.closed, 0, lft, nat0⟩, [(getCacheKey url defaultOpts, e)]⟩ [] hmiss (hfail 1)]
    by_cases h1 : 1 = cfg.retryAttempts
    · rw [if_pos h1]
      rfl
    · rw [if_neg h1]
      exact (apiLoop_allFail cfg url defaultOpts op times hfail f 2 1
        ⟨recordApiFailure cfg ⟨.closed, 0, lft, nat0⟩ (times 1), []⟩ rfl).1

/-- Witness for C1 amended: part 1 at a rejected call whose fallback serves
the stale entry of url "u" (options "o", so the request key is absent), and
part 2 at an exhausted call whose expired default-options entry is evicted
in-loop, yielding the tagged empty result. -/
theorem c1_fallback_policy_witness :
    ((resilientApiCall exampleConfig "u" "o" opDown (fun _ => 0)
        exampleStaleState).result = fallbackOf exampleStaleState.cache "u" ∧
     fallbackResponse.errorTag = some "fallback" ∧ fallbackResponse.items = []) ∧
    (resilientApiCall exampleConfig "u" defaultOpts opDown (fun _ => 100)
        ⟨⟨.closed, 0, 0, 0⟩, [(getCacheKey "u" defaultOpts, ⟨exampleData, 0, 10⟩)]⟩).result
      = fallbackResponse :=
  ⟨c1_fallback_policy.1 exampleConfig "u" "o" opDown (fun _ => 0) exampleStaleState
      (by decide) (fun _ => rfl),
   c1_fallback_policy.2 exampleConfig "u" opDown (fun _ => 100) ⟨exampleData, 0, 10⟩ 0 0
      (by decide) (fun _ => rfl) (by decide)⟩

/-- C9 counterexample: the end-to-end scenario (operation fails twice, then
succeeds, `maxAttempts = 3`, fresh CLOSED breaker) returns the success value
but leaves `failureCount = 2`, not 1: part_003 counts each per-attempt
failure and `recordApiSuccess` does NOT decay `failureCount` in CLOSED (the
decay rule lives only in part_001's `APIBreaker.resetCircuitBreaker`, whose
pipeline reports a single outcome per overall call and would leave 0). -/
theorem c9_counterexample :
    (resilientApiCall exampleConfig "u" "o" opTwoFailThenOk (fun _ => 0)
        exampleGoodState).state.cb.failureCount = 2 ∧
    (resilientApiCall exampleConfig "u" "o" opTwoFailThenOk (fun _ => 0)
        exampleGoodState).state.cb.failureCount ≠ 1 ∧
    (resilientApiCall exampleConfig "u" "o" opTwoFailThenOk (fun _ => 0)
        exampleGoodState).result = ⟨[1], none⟩ := by
  decide

/-- C9 amended: with the default configuration (`retryAttempts 3`,
`circuitBreakerThreshold 5`), a single pipeline call whose operation fails
on attempts 1 and 2 and returns a valid body on attempt 3, starting from a
CLOSED breaker with `failureCount 0` and no cache entry for the request key,
returns the success value, invokes the operation three times, and leaves the
breaker CLOSED with `failureCount = 2` (two per-attempt failures counted;
the success in CLOSED leaves the counter unchanged — there is no decay in
this pipeline). -/
theorem c9_pipeline_scenario (url opts : String)
    (op : Nat → Except JsError ApiResponse) (times : Nat → Nat)
    (e1 e2 : JsError) (raw : ApiResponse) (c : Cache) (lft nat0 : Nat)
    (h1 : op 1 = .error e1) (h2 : op 2 = .error e2) (h3 : op 3 = .ok raw)
    (hraw : raw.errorTag = none)
    (hkey : alistLookup c (getCacheKey url opts) = none) :
    (resilientApiCall exampleConfig url opts op times ⟨⟨.closed, 0, lft, nat0⟩, c⟩).result
        = raw ∧
    (resilientApiCall exampleConfig url opts op times
        ⟨⟨.closed, 0, lft, nat0⟩, c⟩).state.cb.state = .closed ∧
    (resilientApiCall exampleConfig url opts op times
        ⟨⟨.closed, 0, lft, nat0⟩, c⟩).state.cb.failureCount = 2 ∧
    (resilientApiCall exampleConfig url opts op times
        ⟨⟨.closed, 0, lft, nat0⟩, c⟩).invocations = 3 := by
  have hstart : resilientApiCall exampleConfig url opts op times ⟨⟨.closed, 0, lft, nat0⟩, c⟩
      = apiLoop exampleConfig url opts op times (1 + 1 + 1) 1 0
          ⟨⟨.closed, 0, lft, nat0⟩, c⟩ := rfl
  have hcb1 : recordApiFailure exampleConfig ⟨.closed, 0, lft, nat0⟩ (times 1)
      = ⟨.closed, 1, times 1, nat0⟩ := by
    simp only [recordApiFailure]
    rw [if_neg (by decide)]
  have hcb2 : recordApiFailure exampleConfig ⟨.closed, 1, times 1, nat0⟩ (times (1 + 1))
      = ⟨.closed, 2, times (1 + 1), nat0⟩ := by
    simp only [recordApiFailure]
    rw [if_neg (by decide)]
  have hcs : recordApiSuccess ⟨.closed, 2, times (1 + 1), nat0⟩
      = ⟨.closed, 2, times (1 + 1), nat0⟩ := by
    simp [recordApiSuccess]
  rw [hstart,
    apiLoop_fail_step exampleConfig url opts op times (1 + 1) 1 0
      ⟨⟨.closed, 0, lft, nat0⟩, c⟩ c
      (getFromCache_absent c (getCacheKey url opts) false (times 1) hkey)
      (by rw [attemptFails.eq_def, h1]),
    if_neg (by decide), hcb1,
    apiLoop_fail_step exampleConfig url opts op times 1 (1 + 1) (0 + 1)
      ⟨⟨.closed, 1, times 1, nat0⟩, c⟩ c
      (getFromCache_absent c (getCacheKey url opts) false (times (1 + 1)) hkey)
      (by rw [attemptFails.eq_def, show op (1 + 1) = .error e2 from h2]),
    if_neg (by decide), hcb2,
    apiLoop_success_step exampleConfig url opts op times 0 (1 + 1 + 1) (0 + 1 + 1)
      ⟨⟨.closed, 2, times (1 + 1), nat0⟩, c⟩ c raw
      (getFromCache_absent c (getCacheKey url opts) false (times (1 + 1 + 1)) hkey)
      (show op (1 + 1 + 1) = .ok raw from h3) hraw,
    hcs]
  exact ⟨rfl, rfl, rfl, rfl⟩

/-- Witness for C9 amended at the concrete failing-twice operation. -/
theorem c9_pipeline_scenario_witness :
    (resilientApiCall exampleConfig "u" "o" opTwoFailThenOk (fun _ => 0)
        ⟨⟨.closed, 0, 0, 0⟩, []⟩).result = ⟨[1], none⟩ ∧
    (resilientApiCall exampleConfig "u" "o" opTwoFailThenOk (fun _ => 0)
        ⟨⟨.closed, 0, 0, 0⟩, []⟩).state.cb.state = .closed ∧
    (resilientApiCall exampleConfig "u" "o" opTwoFailThenOk (fun _ => 0)
        ⟨⟨.closed, 0, 0, 0⟩, []⟩).state.cb.failureCount = 2 ∧
    (resilientApiCall exampleConfig "u" "o" opTwoFailThenOk (fun _ => 0)
        ⟨⟨.closed, 0, 0, 0⟩, []⟩).invocations = 3 :=
  c9_pipeline_scenario "u" "o" opTwoFailThenOk (fun _ => 0) ⟨"E"⟩ ⟨"E"⟩ ⟨[1], none⟩ [] 0 0
    rfl rfl rfl rfl rfl

end SelfHealing
